import Mathlib

/-!
Verification of the Mautic/Selectel deployment action against its
specification.  The TypeScript sources (scripts/mautic-deployer.ts,
scripts/config.ts, scripts/docker-manager.ts, scripts/ssl-manager.ts)
are shallowly embedded here: JavaScript strings become `List Char`,
side-effecting external operations (shell commands, container
inspections, certbot, nginx) become explicit environment records of
their observable outcomes, and each method becomes a total Lean
function over those inputs.
-/

namespace MauticSelectel

/-- Strings are embedded as lists of characters so that every string
operation used by the TypeScript code can be given a structurally
recursive, kernel-computable definition. -/
abbrev Str := List Char

/-- Embedding of JavaScript `s.split(sep)` for a one-character
separator: splits on every occurrence, keeping empty pieces, and yields
one piece even for the empty string (as `''.split(c)` does). -/
def splitOnChar (sep : Char) : Str → List Str
  | [] => [[]]
  | c :: rest =>
    let r := splitOnChar sep rest
    if c = sep then [] :: r
    else
      match r with
      | [] => [[c]]
      | s :: ss => (c :: s) :: ss

/-- Embedding of JavaScript `s.startsWith(pat)`. -/
def startsWithSeq (s pat : Str) : Bool := pat.isPrefixOf s

/-- Embedding of JavaScript `s.endsWith(pat)`, via the reversed lists. -/
def endsWithSeq (s pat : Str) : Bool := pat.reverse.isPrefixOf s.reverse

/-- Embedding of JavaScript `s.includes(pat)`: `pat` occurs as a
contiguous substring of `s` (every string includes the empty string). -/
def containsSeq (s pat : Str) : Bool :=
  match s with
  | [] => pat.isEmpty
  | _ :: rest => pat.isPrefixOf s || containsSeq rest pat

/-- Whitespace removal from the front, as JavaScript `trimStart`. -/
def trimLeftWs : Str → Str
  | [] => []
  | c :: r => if c.isWhitespace then trimLeftWs r else c :: r

/-- Whitespace removal from the back, as JavaScript `trimEnd`. -/
def trimRightWs (s : Str) : Str := (trimLeftWs s.reverse).reverse

/-- Embedding of JavaScript `s.trim()`. -/
def trimWs (s : Str) : Str := trimRightWs (trimLeftWs s)

/-- Number of lines as computed by the TypeScript code via
`content.split('\n').length`. -/
def linesCount (s : Str) : Nat := (splitOnChar '\n' s).length

/-- UTF-8 byte length, as computed by the TypeScript code via
`new TextEncoder().encode(content).length`. -/
def byteLen (s : Str) : Nat := (s.map Char.utf8Size).sum

/-- Worker for `replaceSeq`, structurally recursive on a fuel argument
so that the kernel can evaluate it; each step consumes at least one
character of the remaining input, so a fuel of `s.length` is enough. -/
def replaceSeqFuel (pat repl : Str) : Nat → Str → Str
  | 0, s => s
  | _ + 1, [] => []
  | fuel + 1, c :: rest =>
    if pat ≠ [] ∧ pat.isPrefixOf (c :: rest) then
      repl ++ replaceSeqFuel pat repl fuel (rest.drop (pat.length - 1))
    else
      c :: replaceSeqFuel pat repl fuel rest

/-- Embedding of the template substitution `s.replace(/pat/g, repl)`:
every (leftmost, non-overlapping) occurrence of the literal pattern is
replaced. -/
def replaceSeq (pat repl s : Str) : Str := replaceSeqFuel pat repl s.length s

/-! ## Claim C2: MauticDeployer.isInstalled (scripts/mautic-deployer.ts, lines 18-34) -/

/-- Embedding of `results.filter(Boolean).length` over the list of the
four check outcomes. -/
def passedChecks (results : List Bool) : Nat := (results.filter id).length

/-- Embedding of `MauticDeployer.isInstalled`: the four independent
checks are `checkDockerCompose` (compose file present),
`checkMauticDirectories` (both data directories present),
`checkDatabase` (container `mautibox_db` has status `running`) and
`checkConfigFiles` (`.mautic_env` present); the result is
`passedChecks >= 3`. -/
def isInstalled (compose dirs db env : Bool) : Bool :=
  decide (3 ≤ passedChecks [compose, dirs, db, env])

/-- The claim C2 property: `isInstalled` is exactly the 3-of-4 quorum of
its four checks, and on a freshly provisioned empty host (all four
checks fail) it returns false. -/
theorem C2_isInstalled_quorum :
    (∀ compose dirs db env : Bool,
      isInstalled compose dirs db env =
        (compose && dirs && db || compose && dirs && env ||
         compose && db && env || dirs && db && env)) ∧
    isInstalled false false false false = false := by
  constructor
  · intro compose dirs db env
    cases compose <;> cases dirs <;> cases db <;> cases env <;> decide
  · decide

/-! ## Claim C10: loadDeploymentConfig (scripts/config.ts, lines 13-33) -/

/-- Embedding of the per-line handling of `loadDeploymentConfig`: the
line is trimmed; blank lines, `#`-comment lines and lines without `=`
are skipped; otherwise `const [key, ...valueParts] = trimmed.split('=')`
takes the key before the first `=` and the value is the remaining parts
re-joined with `=`; an empty key is skipped (`if (key)`). -/
def parseEnvLine (line : Str) : Option (Str × Str) :=
  let t := trimWs line
  if t = [] then none
  else if startsWithSeq t ['#'] then none
  else if ¬ t.contains '=' then none
  else
    match splitOnChar '=' t with
    | [] => none
    | k :: vs => if k = [] then none else some (k, List.intercalate ['='] vs)

/-- Embedding of the parsing loop of `loadDeploymentConfig` over
`envContent.split('\n')`. -/
def parseEnvLines (ls : List Str) : List (Str × Str) := ls.filterMap parseEnvLine

/-- Embedding of `parseEnvLines` applied to the whole file content. -/
def parseEnvFile (content : Str) : List (Str × Str) := parseEnvLines (splitOnChar '\n' content)

/-- Lookup in the accumulated `config` object: later assignments to the
same key overwrite earlier ones, so the value is the one of the last
matching line. -/
def lookupEnv (entries : List (Str × Str)) (key : Str) : Option Str :=
  (entries.reverse.find? (fun p => p.1 = key)).map (·.2)

/-- The required keys of `loadDeploymentConfig` (scripts/config.ts,
lines 24-27). -/
def requiredKeys : List Str :=
  ["EMAIL_ADDRESS".data, "MAUTIC_PASSWORD".data, "IP_ADDRESS".data,
   "PORT".data, "MAUTIC_VERSION".data, "MYSQL_DATABASE".data,
   "MYSQL_USER".data, "MYSQL_PASSWORD".data, "MYSQL_ROOT_PASSWORD".data]

/-- The first required key whose value is missing or empty, mirroring
the validation loop `for (const field of required) if (!config[field])`
(a JavaScript falsy test: both an absent key and an empty value fail). -/
def missingRequiredKey (content : Str) : Option Str :=
  requiredKeys.find? (fun k => ((lookupEnv (parseEnvFile content) k).getD []).isEmpty)

/-- Embedding of `loadDeploymentConfig`: parse the environment file,
then throw (`Except.error`) on the first required key whose value is
missing or empty, otherwise return the parsed configuration.  The
function is pure: in the embedding (as in the source) validation happens
at load time, before any remote operation is modelled. -/
def loadDeploymentConfig (content : Str) : Except Str (List (Str × Str)) :=
  match missingRequiredKey content with
  | some k => Except.error ("Required variable is not set: ".data ++ k)
  | none => Except.ok (parseEnvFile content)

/-- The claim C10 property: `loadDeploymentConfig` parses `key=value`
lines ignoring blank lines and `#`-comment lines (such lines contribute
no entry), and it succeeds exactly when every required key is present
with a non-empty value — any missing or empty required key makes the
load fail. -/
theorem C10_loadConfig_validation :
    (∀ line : Str, trimWs line = [] ∨ startsWithSeq (trimWs line) ['#'] = true →
      parseEnvLine line = none) ∧
    (∀ pre post : List Str, ∀ line : Str,
      parseEnvLine line = none →
      parseEnvLines (pre ++ line :: post) = parseEnvLines (pre ++ post)) ∧
    (∀ content : Str,
      (loadDeploymentConfig content).isOk = true ↔
        ∀ k ∈ requiredKeys, ∃ v, lookupEnv (parseEnvFile content) k = some v ∧ v ≠ []) := by
  have hok : ∀ content : Str,
      (loadDeploymentConfig content).isOk = true ↔ missingRequiredKey content = none := by
    intro content
    unfold loadDeploymentConfig
    cases h : missingRequiredKey content <;> simp [h, Except.isOk, Except.toBool]
  refine ⟨?_, ?_, ?_⟩
  · intro line h
    unfold parseEnvLine
    by_cases he : trimWs line = []
    · simp [he]
    · rcases h with h | h
      · exact absurd h he
      · simp [he, h]
  · intro pre post line h
    simp [parseEnvLines, List.filterMap_append, List.filterMap_cons, h]
  · intro content
    rw [hok content]
    unfold missingRequiredKey
    rw [List.find?_eq_none]
    constructor
    · intro hall k hk
      have := hall k hk
      rcases hv : lookupEnv (parseEnvFile content) k with _ | ⟨v⟩
      · rw [hv] at this
        simp at this
      · refine ⟨v, rfl, ?_⟩
        rw [hv] at this
        simpa using this
    · intro hall k hk
      rcases hall k hk with ⟨v, hv, hne⟩
      rw [hv]
      simpa using hne

/-- Witness for C10 at concrete inputs: a comment line parses to
nothing, and a file containing all required keys with non-empty values
(plus a blank and a comment line) loads successfully. -/
theorem C10_loadConfig_validation_witness :
    parseEnvLine "# comment".data = none ∧
    (loadDeploymentConfig ("EMAIL_ADDRESS=a@b.c\nMAUTIC_PASSWORD=p\nIP_ADDRESS=1.2.3.4\nPORT=8001\nMAUTIC_VERSION=6.0.5\n\n# db\nMYSQL_DATABASE=m\nMYSQL_USER=u\nMYSQL_PASSWORD=pw\nMYSQL_ROOT_PASSWORD=rpw".data)).isOk = true := by
  constructor
  · exact C10_loadConfig_validation.1 "# comment".data (Or.inr (by decide))
  · exact (C10_loadConfig_validation.2.2 _).mpr (by decide)

/-! ## Claim C5: DockerManager.waitForHealthy (scripts/docker-manager.ts, lines 190-233) -/

/-- Embedding of the `ContainerInfo` snapshot produced by
`DockerManager.getContainerInfo`: lifecycle status plus optional health
(`undefined` when the inspection prints `<no value>` or nothing). -/
structure ContainerInfo where
  status : Str
  health : Option Str
deriving DecidableEq

/-- The success test of one polling iteration of `waitForHealthy`
(lines 196-201): the container was found, its status is `running`, and
its health is absent (no healthcheck defined, treated as healthy) or
`healthy`. -/
def healthyObserved : Option ContainerInfo → Bool
  | some info =>
      decide (info.status = "running".data) &&
        (decide (info.health = none) || decide (info.health = some "healthy".data))
  | none => false

/-- Number of iterations of `for (let i = 0; i < timeoutSeconds; i += 15)`. -/
def numPolls (timeoutSeconds : Nat) : Nat := (timeoutSeconds + 14) / 15

/-- The polling loop of `waitForHealthy`: `k` is the index of the next
poll, `n` the number of iterations left.  Each iteration polls the
container (the environment `poll` gives the snapshot observed by the
`k`-th poll), returns success immediately on a healthy observation, and
otherwise sleeps 15 seconds before the next iteration.  The returned
number is the elapsed seconds: `15 * k` on success at poll `k` (which
happens right after the previous sleep), and `15 *` (total iterations)
on timeout (the loop sleeps once more after its last failed poll). -/
def waitLoop (poll : Nat → Option ContainerInfo) : Nat → Nat → Bool × Nat
  | k, 0 => (false, 15 * k)
  | k, n + 1 => if healthyObserved (poll k) then (true, 15 * k) else waitLoop poll (k + 1) n

/-- Embedding of `DockerManager.waitForHealthy` (with the diagnostic log
dumps omitted: they do not influence the decision). -/
def waitForHealthy (poll : Nat → Option ContainerInfo) (timeoutSeconds : Nat) : Bool × Nat :=
  waitLoop poll 0 (numPolls timeoutSeconds)

theorem waitLoop_all_fail (poll : Nat → Option ContainerInfo) :
    ∀ n k, (∀ j, healthyObserved (poll j) = false) → waitLoop poll k n = (false, 15 * (k + n)) := by
  intro n
  induction n with
  | zero => intro k _; simp [waitLoop]
  | succ n ih =>
    intro k hall
    rw [waitLoop, hall k, if_neg (by simp)]
    rw [ih (k + 1) hall]
    ring_nf

theorem waitLoop_first_success (poll : Nat → Option ContainerInfo) :
    ∀ n k j, j < n → (∀ i, i < j → healthyObserved (poll (k + i)) = false) →
      healthyObserved (poll (k + j)) = true → waitLoop poll k n = (true, 15 * (k + j)) := by
  intro n
  induction n with
  | zero => intro k j hj; omega
  | succ n ih =>
    intro k j hj hfail hsucc
    rcases Nat.eq_zero_or_pos j with hz | hpos
    · subst hz
      simp only [Nat.add_zero] at hsucc
      rw [waitLoop, hsucc, if_pos rfl, Nat.add_zero]
    · have hfail0 : healthyObserved (poll k) = false := by
        have := hfail 0 hpos
        simpa using this
      rw [waitLoop, hfail0, if_neg (by simp)]
      have := ih (k + 1) (j - 1) (by omega)
        (fun i hi => by
          have := hfail (i + 1) (by omega)
          rwa [show k + (i + 1) = k + 1 + i by omega] at this)
        (by rwa [show k + 1 + (j - 1) = k + j by omega])
      rw [this, show k + 1 + (j - 1) = k + j by omega]

/-- The claim C5 property: `waitForHealthy` polls every 15 seconds and
(1) returns success at elapsed time `15 * j` as soon as the `j`-th poll
is the first to observe status `running` with health absent or
`healthy`; (2) when no poll within the budget succeeds it returns
failure after exactly `numPolls timeoutSeconds` iterations, i.e. after
`15 * numPolls timeoutSeconds` elapsed seconds — a fixed finite bound,
never an unbounded wait; and (3) in particular against a never-healthy
container with `timeoutSeconds = 30` it returns failure after 30
seconds, not earlier. -/
theorem C5_waitForHealthy_bounded (poll : Nat → Option ContainerInfo) :
    (∀ timeoutSeconds j, j < numPolls timeoutSeconds →
      (∀ i, i < j → healthyObserved (poll i) = false) →
      healthyObserved (poll j) = true →
      waitForHealthy poll timeoutSeconds = (true, 15 * j)) ∧
    (∀ timeoutSeconds, (∀ j, healthyObserved (poll j) = false) →
      waitForHealthy poll timeoutSeconds = (false, 15 * numPolls timeoutSeconds)) ∧
    (∀ timeoutSeconds, (waitForHealthy poll timeoutSeconds).2 ≤ 15 * numPolls timeoutSeconds) ∧
    ((∀ j, healthyObserved (poll j) = false) → waitForHealthy poll 30 = (false, 30)) := by
  have hfail : ∀ t, (∀ j, healthyObserved (poll j) = false) →
      waitForHealthy poll t = (false, 15 * numPolls t) := by
    intro t h
    unfold waitForHealthy
    rw [waitLoop_all_fail poll (numPolls t) 0 h]
    simp
  have hbound : ∀ n k, (waitLoop poll k n).2 ≤ 15 * (k + n) := by
    intro n
    induction n with
    | zero => intro k; simp [waitLoop]
    | succ n ih =>
      intro k
      rw [waitLoop]
      by_cases h : healthyObserved (poll k) = true
      · rw [if_pos h]
        simp only
        omega
      · rw [if_neg h]
        have := ih (k + 1)
        omega
  refine ⟨?_, hfail, ?_, ?_⟩
  · intro t j hj hfaili hsucc
    unfold waitForHealthy
    have := waitLoop_first_success poll (numPolls t) 0 j hj
      (fun i hi => by simpa using hfaili i hi) (by simpa using hsucc)
    simpa using this
  · intro t
    have := hbound (numPolls t) 0
    simpa using this
  · intro h
    have := hfail 30 h
    simpa [numPolls] using this

/-- Witness for C5 at a concrete never-healthy environment: with every
poll observing a `starting`, unhealthy container and a 30-second budget,
the wait returns failure after exactly 30 seconds. -/
theorem C5_waitForHealthy_bounded_witness :
    waitForHealthy
        (fun _ => some { status := "starting".data, health := some "starting".data }) 30 =
      (false, 30) :=
  (C5_waitForHealthy_bounded
    (fun _ => some { status := "starting".data, health := some "starting".data })).2.2.2
    (fun _ => by decide)

/-! ## Claim C4: health-wait criticality in performUpdate and
performInstallation (scripts/mautic-deployer.ts, lines 100-149 and
220-351) -/

/-- Observable outcomes of the external steps of
`MauticDeployer.performUpdate`: image pull, container recreation, and
the two health waits (whose results the method stores in `healthyWeb`
and `healthyDb` and checks). -/
structure UpdateEnv where
  pullOk : Bool
  recreateOk : Bool
  webHealthy : Bool
  dbHealthy : Bool
deriving DecidableEq

/-- Embedding of `MauticDeployer.performUpdate`: pull the image (throw
on failure), rewrite the compose file, recreate containers (throw on
failure), wait for both containers' health and throw if either wait
reports failure; the trailing cache clears and white-label overlay
catch their own errors and never fail the run; every throw is caught at
the bottom and turned into `false`. -/
def performUpdate (e : UpdateEnv) : Bool :=
  if ¬ e.pullOk then false
  else if ¬ e.recreateOk then false
  else if ¬ (e.webHealthy && e.dbHealthy) then false
  else true

/-- Observable outcomes of the external steps of
`MauticDeployer.performInstallation`.  The two health-wait fields record
what `waitForHealthy('mautibox_db', 180)` and
`waitForHealthy('mautibox_web', 300)` return; the source awaits both
calls on lines 295 and 298 but discards both boolean results. -/
structure InstallEnv where
  startOk : Bool
  dbHealthy : Bool
  webHealthy : Bool
  langPackConfigured : Bool
  langPackOk : Bool
  mauticInstallOk : Bool
deriving DecidableEq

/-- Embedding of `MauticDeployer.performInstallation`: directory
creation and the environment file always succeed in the model; container
start failure throws; the two health waits are performed but their
results are not consulted; a configured language pack whose installation
fails throws; `runMauticInstallation` failure throws; the remaining
steps (cache clears, `.htaccess` fixes, theme/plugin batch, white-label
overlay) catch their own errors; every throw is caught at the bottom and
turned into `false`. -/
def performInstallation (e : InstallEnv) : Bool :=
  if ¬ e.startOk then false
  else if e.langPackConfigured && ¬ e.langPackOk then false
  else if ¬ e.mauticInstallOk then false
  else true

/-- Counterexample to C4: an installation run in which every step
succeeds except both health waits (database and web container both time
out and report failure) still returns success — `performInstallation`
does not abort on a health-wait timeout, contradicting the claim that
both flows abort and return failure. -/
theorem C4_health_timeout_counterexample :
    performInstallation
      { startOk := true, dbHealthy := false, webHealthy := false,
        langPackConfigured := false, langPackOk := false, mauticInstallOk := true } = true := by
  decide

/-- The amended C4 property: (1) `performUpdate` does treat a health-wait
timeout as critical — whenever either health wait reports failure, the
update run returns failure; (2) `performInstallation` ignores the
health-wait results entirely — its outcome is unchanged under arbitrary
replacement of both health-wait results, so a health-wait timeout never
aborts the installation run. -/
theorem C4_health_timeout_flows :
    (∀ e : UpdateEnv, e.webHealthy = false ∨ e.dbHealthy = false → performUpdate e = false) ∧
    (∀ e : InstallEnv, ∀ a b : Bool,
      performInstallation { e with dbHealthy := a, webHealthy := b } = performInstallation e) := by
  constructor
  · intro e h
    unfold performUpdate
    rcases h with h | h <;> rw [h] <;> by_cases hp : e.pullOk <;>
      by_cases hr : e.recreateOk <;> simp [hp, hr]
  · intro e a b
    rfl

/-- Witness for C4 at concrete inputs: an update run with a failed web
health wait fails, and the counterexample installation environment keeps
its (successful) outcome under any health-wait results. -/
theorem C4_health_timeout_flows_witness :
    performUpdate { pullOk := true, recreateOk := true, webHealthy := false, dbHealthy := true } = false ∧
    performInstallation
      { startOk := true, dbHealthy := false, webHealthy := false,
        langPackConfigured := false, langPackOk := false, mauticInstallOk := true } =
      performInstallation
        { startOk := true, dbHealthy := true, webHealthy := true,
          langPackConfigured := false, langPackOk := false, mauticInstallOk := true } := by
  constructor
  · exact C4_health_timeout_flows.1 _ (Or.inl rfl)
  · exact C4_health_timeout_flows.2
      { startOk := true, dbHealthy := true, webHealthy := true,
        langPackConfigured := false, langPackOk := false, mauticInstallOk := true } false false

/-! ## Claim C3: needsUpdate after performUpdate
(scripts/mautic-deployer.ts, lines 82-116; scripts/docker-manager.ts,
lines 49-58) -/

/-- Embedding of the version normalisation used by `performUpdate` and
`updateDockerComposeVersion`: append `-apache` unless the configured
version already ends with it. -/
def appendApache (v : Str) : Str :=
  if endsWithSeq v "-apache".data then v else v ++ "-apache".data

/-- The image reference `performUpdate` pulls and writes into
docker-compose.yml for configured version `v`; after a successful
update this is the web container's image. -/
def mauticImage (v : Str) : Str := "mautic/mautic:".data ++ appendApache v

/-- Embedding of the tag extraction of
`DockerManager.getCurrentMauticVersion`:
`webContainer.image.split(':')[1]` followed by `imageTag || null`
(an absent or empty tag becomes null). -/
def imageTag (image : Str) : Option Str :=
  match splitOnChar ':' image with
  | _ :: t :: _ => if t.isEmpty then none else some t
  | _ => none

/-- Embedding of `MauticDeployer.needsUpdate`: true when no current
version could be read, true when the raw running tag differs from the
configured `mauticVersion`, false otherwise. -/
def needsUpdate (current : Option Str) (target : Str) : Bool :=
  match current with
  | none => true
  | some c => decide (¬ c = target)

theorem splitOnChar_sepfree (sep : Char) (l : Str) (h : ∀ c ∈ l, c ≠ sep) :
    splitOnChar sep l = [l] := by
  induction l with
  | nil => rfl
  | cons c rest ih =>
    have hc : c ≠ sep := h c (List.mem_cons_self c rest)
    rw [splitOnChar]
    simp only [if_neg hc, ih (fun x hx => h x (List.mem_cons_of_mem c hx))]

theorem splitOnChar_append_sepfree (sep : Char) (l₁ l₂ : Str) (h : ∀ c ∈ l₁, c ≠ sep) :
    splitOnChar sep (l₁ ++ sep :: l₂) = l₁ :: splitOnChar sep l₂ := by
  induction l₁ with
  | nil =>
    rw [List.nil_append, splitOnChar]
    simp
  | cons c rest ih =>
    have hc : c ≠ sep := h c (List.mem_cons_self c rest)
    rw [List.cons_append, splitOnChar]
    simp only [if_neg hc, ih (fun x hx => h x (List.mem_cons_of_mem c hx))]

theorem appendApache_ne_nil (v : Str) : appendApache v ≠ [] := by
  unfold appendApache
  by_cases h : endsWithSeq v "-apache".data
  · rw [if_pos h]
    intro hv
    rw [hv] at h
    exact absurd h (by decide)
  · rw [if_neg h]
    simp

theorem appendApache_noColon {v : Str} (h : ∀ c ∈ v, c ≠ ':') :
    ∀ c ∈ appendApache v, c ≠ ':' := by
  unfold appendApache
  split
  · exact h
  · intro c hc heq
    subst heq
    rcases List.mem_append.mp hc with h1 | h2
    · exact h ':' h1 rfl
    · exact absurd h2 (by decide)

theorem appendApache_eq_self_iff (v : Str) :
    appendApache v = v ↔ endsWithSeq v "-apache".data = true := by
  unfold appendApache
  by_cases h : endsWithSeq v "-apache".data
  · simp [h]
  · simp only [if_neg h, h, Bool.false_eq_true, iff_false]
    intro he
    have := congrArg List.length he
    simp at this

theorem imageTag_mauticImage {v : Str} (h : ∀ c ∈ v, c ≠ ':') :
    imageTag (mauticImage v) = some (appendApache v) := by
  have h13 : ∀ c ∈ "mautic/mautic".data, c ≠ ':' := by decide
  have heq : mauticImage v = "mautic/mautic".data ++ ':' :: appendApache v := rfl
  rw [imageTag, heq, splitOnChar_append_sepfree ':' _ _ h13,
    splitOnChar_sepfree ':' _ (appendApache_noColon h)]
  simp [List.isEmpty_iff, appendApache_ne_nil v]

/-- Counterexample to C3: for the configured target version `6.0.5`
(which does not carry the `-apache` suffix), the tag read back from the
web container right after a successful `performUpdate` is
`6.0.5-apache`, and `needsUpdate` — which compares the raw tag against
the configured version — returns true, not false. -/
theorem C3_needsUpdate_counterexample :
    imageTag (mauticImage "6.0.5".data) = some "6.0.5-apache".data ∧
    needsUpdate (imageTag (mauticImage "6.0.5".data)) "6.0.5".data = true := by
  constructor <;> decide

/-- The amended C3 property, for any configured version `v` without a
colon: after a successful `performUpdate` the web container's tag reads
back as `appendApache v`, so `needsUpdate` returns false afterwards if
and only if `v` already ends with `-apache` (otherwise the written tag
is `v ++ "-apache"`, which differs from `v`, and `needsUpdate` returns
true); and in general `needsUpdate` returns true exactly when the
running tag is absent or differs from the configured version. -/
theorem C3_needsUpdate_after_update :
    (∀ v : Str, (∀ c ∈ v, c ≠ ':') →
      imageTag (mauticImage v) = some (appendApache v) ∧
      (needsUpdate (imageTag (mauticImage v)) v = false ↔ endsWithSeq v "-apache".data = true)) ∧
    (∀ v t : Str, needsUpdate (some t) v = true ↔ t ≠ v) ∧
    (∀ v : Str, needsUpdate none v = true) := by
  refine ⟨?_, ?_, ?_⟩
  · intro v h
    refine ⟨imageTag_mauticImage h, ?_⟩
    rw [imageTag_mauticImage h]
    unfold needsUpdate
    rw [← appendApache_eq_self_iff v]
    by_cases he : appendApache v = v <;> simp [he]
  · intro v t
    unfold needsUpdate
    simp
  · intro v
    rfl

/-- Witness for C3 at concrete versions: for `6.0.5-apache` (already
suffixed, no colon) `needsUpdate` is false right after the update, and
for the unsuffixed `6.0.5` it is true. -/
theorem C3_needsUpdate_after_update_witness :
    needsUpdate (imageTag (mauticImage "6.0.5-apache".data)) "6.0.5-apache".data = false ∧
    needsUpdate (imageTag (mauticImage "6.0.5".data)) "6.0.5".data = true := by
  constructor
  · exact ((C3_needsUpdate_after_update.1 "6.0.5-apache".data (by decide)).2).mpr (by decide)
  · have h := (C3_needsUpdate_after_update.1 "6.0.5".data (by decide)).2
    by_cases hb : needsUpdate (imageTag (mauticImage "6.0.5".data)) "6.0.5".data = false
    · exact absurd (h.mp hb) (by decide)
    · simpa using hb

/-! ## Claim C6: SSLManager.generateCertificate
(scripts/ssl-manager.ts, direct-file-API variant, lines 421-524) -/

/-- Observable outcomes of the external operations performed by
`SSLManager.generateCertificate`: the certbot invocation, the
`certbot certificates -d domain` follow-up lookup (its success flag and
its textual output), the configured domain, and the vhost file content
read back after a certbot success. -/
structure CertEnv where
  domainName : Str
  certbotOk : Bool
  lookupOk : Bool
  lookupOutput : Str
  finalConfig : Str
deriving DecidableEq

/-- Embedding of `SSLManager.generateCertificate`.  When certbot fails,
the method queries the existing certificates for the domain and returns
true exactly when that lookup succeeded and its output mentions the
(non-empty) domain, otherwise it returns false.  When certbot succeeds,
the method re-reads the vhost file and fails if it no longer ends with
the closing brace (truncation by certbot's own rewrite) or is empty;
every throw is caught at the bottom and turned into `false`. -/
def generateCertificate (e : CertEnv) : Bool :=
  if ¬ e.certbotOk then
    if e.lookupOk && !e.domainName.isEmpty && containsSeq e.lookupOutput e.domainName then
      true
    else
      false
  else
    if ¬ endsWithSeq (trimRightWs e.finalConfig) ['\x7d'] then false
    else if e.finalConfig.isEmpty then false
    else if ¬ endsWithSeq (trimRightWs e.finalConfig) ['\x7d'] then false
    else true

/-- The claim C6 property: when the ACME client (certbot) reports
failure, `generateCertificate` succeeds exactly when the follow-up
certificate lookup for the domain succeeds and shows the domain (a
certificate already exists — the failure is benign and the re-run is
idempotent); in every other case the original failure is propagated and
the method returns false. -/
theorem C6_generateCertificate_idempotent (e : CertEnv) (h : e.certbotOk = false) :
    generateCertificate e = true ↔
      (e.lookupOk = true ∧ e.domainName ≠ [] ∧ containsSeq e.lookupOutput e.domainName = true) := by
  unfold generateCertificate
  by_cases h1 : e.lookupOk <;> by_cases h2 : e.domainName = [] <;>
    by_cases h3 : containsSeq e.lookupOutput e.domainName <;>
      simp [h, h1, h2, h3, List.isEmpty_iff]

/-- Witness for C6 at concrete environments: with certbot failing, the
run succeeds when the lookup lists the domain, and fails when the lookup
output does not mention it. -/
theorem C6_generateCertificate_idempotent_witness :
    generateCertificate
      { domainName := "demo.example.com".data, certbotOk := false, lookupOk := true,
        lookupOutput := "Found the following certs: demo.example.com".data,
        finalConfig := [] } = true ∧
    generateCertificate
      { domainName := "demo.example.com".data, certbotOk := false, lookupOk := true,
        lookupOutput := "No certificates found.".data, finalConfig := [] } = false := by
  constructor
  · exact (C6_generateCertificate_idempotent _ rfl).mpr (by refine ⟨rfl, by decide, by decide⟩)
  · by_cases hb : generateCertificate
      { domainName := "demo.example.com".data, certbotOk := false, lookupOk := true,
        lookupOutput := "No certificates found.".data, finalConfig := [] } = true
    · rcases (C6_generateCertificate_idempotent _ rfl).mp hb with ⟨-, -, hc⟩
      exact absurd hc (by decide)
    · simpa using hb

/-! ## Claim C7: MauticDeployer.installThemesAndPluginsRuntime
(scripts/mautic-deployer.ts, lines 704-762) -/

/-- Embedding of the item-list parsing
`raw.split('\n').map(t => t.trim()).filter(Boolean)`. -/
def parseItems (raw : Str) : List Str :=
  ((splitOnChar '\n' raw).map trimWs).filter (fun t => !t.isEmpty)

/-- Embedding of the per-item loop: each item is attempted through the
environment `outcome` (true when the item's `installTheme`/`installPlugin`
call completes, false when it throws); a throwing item only increments
the failure counter — the loop always continues with the next item and
finally reports the pair (successes, failures). -/
def processItemsAux (outcome : Str → Bool) : List Str → Nat → Nat → Nat × Nat
  | [], s, f => (s, f)
  | x :: xs, s, f =>
    if outcome x then processItemsAux outcome xs (s + 1) f
    else processItemsAux outcome xs s (f + 1)

/-- Embedding of `MauticDeployer.installThemesAndPluginsRuntime`: the
themes block runs when `mauticThemes` is configured (set and non-empty),
the plugins block when `mauticPlugins` is; each block processes its
parsed item list independently and reports its summary counts.  The
method itself never throws: the result is the pair of both summaries. -/
def installThemesAndPluginsRuntime (themeOutcome pluginOutcome : Str → Bool)
    (themesRaw pluginsRaw : Option Str) : (Nat × Nat) × (Nat × Nat) :=
  (match themesRaw with
   | some r => if r.isEmpty then (0, 0) else processItemsAux themeOutcome (parseItems r) 0 0
   | none => (0, 0),
   match pluginsRaw with
   | some r => if r.isEmpty then (0, 0) else processItemsAux pluginOutcome (parseItems r) 0 0
   | none => (0, 0))

theorem countP_bool_split (p : Str → Bool) (l : List Str) :
    l.countP p + l.countP (fun x => !p x) = l.length := by
  induction l with
  | nil => simp
  | cons x xs ih =>
    by_cases hx : p x <;> simp [List.countP_cons, hx] <;> omega

theorem processItemsAux_counts (outcome : Str → Bool) :
    ∀ (items : List Str) (s f : Nat),
      processItemsAux outcome items s f =
        (s + items.countP outcome, f + items.countP (fun x => !outcome x)) := by
  intro items
  induction items with
  | nil => intro s f; simp [processItemsAux]
  | cons x xs ih =>
    intro s f
    rw [processItemsAux]
    by_cases hx : outcome x
    · rw [if_pos hx, ih]
      simp [List.countP_cons, hx]
      omega
    · rw [if_neg hx, ih]
      simp only [Bool.not_eq_true] at hx
      simp [List.countP_cons, hx]
      omega

/-- The claim C7 property: the runtime installer processes every parsed
item of both lists independently — the reported summary of each block is
exactly (number of items whose attempt succeeds, number of items whose
attempt fails), so every item is attempted regardless of other items'
failures, each item's individual outcome is counted, the two counts sum
to the number of items, and the batch as a whole always returns its
report rather than aborting. -/
theorem C7_runtime_install_isolated (themeOutcome pluginOutcome : Str → Bool)
    (tr pr : Str) :
    installThemesAndPluginsRuntime themeOutcome pluginOutcome (some tr) (some pr) =
      (if tr.isEmpty then (0, 0) else
        ((parseItems tr).countP themeOutcome,
         (parseItems tr).countP (fun x => !themeOutcome x)),
       if pr.isEmpty then (0, 0) else
        ((parseItems pr).countP pluginOutcome,
         (parseItems pr).countP (fun x => !pluginOutcome x))) ∧
    ((parseItems tr).countP themeOutcome +
        (parseItems tr).countP (fun x => !themeOutcome x) = (parseItems tr).length) ∧
    ((parseItems pr).countP pluginOutcome +
        (parseItems pr).countP (fun x => !pluginOutcome x) = (parseItems pr).length) := by
  refine ⟨?_, ?_, ?_⟩
  · unfold installThemesAndPluginsRuntime
    by_cases ht : tr.isEmpty <;> by_cases hp : pr.isEmpty <;>
      simp [ht, hp, processItemsAux_counts]
  · exact countP_bool_split themeOutcome (parseItems tr)
  · exact countP_bool_split pluginOutcome (parseItems pr)

/-! ## Claim C8: archive validation before extraction
(scripts/mautic-deployer.ts, installPlugin lines 878-1160 and
installTheme lines 764-876) -/

/-- The externally visible actions of a per-item installation that
matter for the validation claim: downloading the artifact, running the
`file` validation command on it, deleting the artifact, extracting it,
and registering/reloading the plugin. -/
inductive Action where
  | download
  | validate
  | deleteArtifact
  | extract
  | register
  | reload
deriving DecidableEq

/-- Observable outcomes of the external commands run by
`MauticDeployer.installPlugin` for one item (after URL parsing):
`fileCmdOk` is the success flag of the `file plugin.zip` shell command
and `fileOutput` its output. -/
structure PluginItemEnv where
  downloadOk : Bool
  fileCmdOk : Bool
  fileOutput : Str
  extractOk : Bool
  registerOk : Bool
deriving DecidableEq

/-- Embedding of the download/validate/extract core of
`MauticDeployer.installPlugin` as (success, trace of actions): a failed
download throws before validation; the `file` command always runs after
a successful download; when it succeeds and its output does not contain
`Zip archive data`, the artifact is deleted and the item throws without
extraction; when the `file` command itself fails, the mismatch is only
logged and extraction proceeds; a failed extraction throws; after
extraction the registration console command runs, falling back to the
reload command when it fails (neither aborts the item). -/
def installPluginSteps (e : PluginItemEnv) : Bool × List Action :=
  if ¬ e.downloadOk then (false, [Action.download])
  else if e.fileCmdOk && ¬ containsSeq e.fileOutput "Zip archive data".data then
    (false, [Action.download, Action.validate, Action.deleteArtifact])
  else if ¬ e.extractOk then (false, [Action.download, Action.validate, Action.extract])
  else if e.registerOk then
    (true, [Action.download, Action.validate, Action.extract, Action.register])
  else
    (true, [Action.download, Action.validate, Action.extract, Action.register, Action.reload])

/-- Observable outcomes of the single combined shell command run by
`MauticDeployer.installTheme` for one item: `cd themes && curl … &&
unzip …` — the shell's `&&` only reaches the extraction when the
download succeeded, the command result is not checked
(`ignoreError: true` and the returned ProcessResult is discarded), and
no `file` validation command exists anywhere in the method. -/
structure ThemeItemEnv where
  downloadOk : Bool
  extractOk : Bool
deriving DecidableEq

/-- Embedding of the download/extract core of
`MauticDeployer.installTheme` as (success, trace of actions): the
combined shell command downloads and (when the download succeeded)
extracts, with no validation step; its result is never inspected, so the
item reports success regardless. -/
def installThemeSteps (e : ThemeItemEnv) : Bool × List Action :=
  if e.downloadOk then (true, [Action.download, Action.extract])
  else (true, [Action.download])

/-- Counterexample to C8: a theme item whose download succeeds but
delivers a non-archive (e.g. an HTML error page saved as `theme.zip`) is
extracted anyway — `installTheme` performs no validation action at all,
deletes nothing, and still reports the item as successful, contradicting
the claim that every theme or plugin item is validated before extraction
and fails with the file deleted on mismatch. -/
theorem C8_zip_validation_counterexample :
    (installThemeSteps { downloadOk := true, extractOk := true }).1 = true ∧
    Action.extract ∈ (installThemeSteps { downloadOk := true, extractOk := true }).2 ∧
    Action.validate ∉ (installThemeSteps { downloadOk := true, extractOk := true }).2 ∧
    Action.deleteArtifact ∉ (installThemeSteps { downloadOk := true, extractOk := true }).2 := by
  refine ⟨rfl, ?_, ?_, ?_⟩ <;> decide

/-- The amended C8 property: only `installPlugin` validates the
downloaded artifact — whenever the download succeeds, the `file`
validation command succeeds, and its output does not report a ZIP
archive, the artifact is deleted, the item fails, and no extraction is
attempted; `installTheme` never performs a validation action for any
outcome environment (and in `installPlugin` a failure of the validation
command itself is only logged, after which extraction proceeds
unvalidated). -/
theorem C8_zip_validation :
    (∀ e : PluginItemEnv,
      e.downloadOk = true → e.fileCmdOk = true →
      containsSeq e.fileOutput "Zip archive data".data = false →
      installPluginSteps e = (false, [Action.download, Action.validate, Action.deleteArtifact])) ∧
    (∀ e : ThemeItemEnv, Action.validate ∉ (installThemeSteps e).2) ∧
    (∀ e : PluginItemEnv, e.downloadOk = true → e.fileCmdOk = false → e.extractOk = true →
      Action.extract ∈ (installPluginSteps e).2) := by
  refine ⟨?_, ?_, ?_⟩
  · intro e h1 h2 h3
    unfold installPluginSteps
    rw [if_neg (by simp [h1]), if_pos (by simp [h2, h3])]
  · intro e
    unfold installThemeSteps
    by_cases h : e.downloadOk <;> simp [h]
  · intro e h1 h2 h3
    unfold installPluginSteps
    rw [if_neg (by simp [h1]), if_neg (by simp [h2]), if_neg (by simp [h3])]
    by_cases hr : e.registerOk <;> simp [hr]

/-- Witness for C8 at a concrete plugin item: the download succeeds but
delivers an HTML page, the `file` command reports `HTML document text`,
and the item fails with the artifact deleted and no extraction. -/
theorem C8_zip_validation_witness :
    installPluginSteps
      { downloadOk := true, fileCmdOk := true,
        fileOutput := "plugin.zip: HTML document text".data,
        extractOk := true, registerOk := true } =
      (false, [Action.download, Action.validate, Action.deleteArtifact]) :=
  C8_zip_validation.1 _ rfl rfl (by decide)

/-! ## Claim C9: package-source URL parsing
(scripts/mautic-deployer.ts, installPlugin lines 887-908; the same
block appears in installTheme and downloadPlugin) -/

/-- Splitting a string at the first occurrence of a character: the part
before it and, when present, the part after it.  Used to model the
WHATWG `URL` decomposition of an `https://github.com/...` URL into the
query-free part (`protocol + host + pathname`) and the query string. -/
def splitAtFirst (sep : Char) : Str → Str × Option Str
  | [] => ([], none)
  | c :: rest =>
    if c = sep then ([], some rest)
    else
      let r := splitAtFirst sep rest
      (c :: r.1, r.2)

/-- One `key=value` pair of a query string: the key is the part before
the first `=`, the value the rest (empty when there is no `=`). -/
def paramEntry (kv : Str) : Str × Str :=
  match splitOnChar '=' kv with
  | [] => ([], [])
  | k :: vs => (k, List.intercalate ['='] vs)

/-- Embedding of `url.searchParams.get(name)`: the query string is split
on `&`, each pair at its first `=`, and the first pair with the given
key wins (percent-decoding is not modelled; the claim's inputs are plain
names and tokens). -/
def searchParamGet (query name : Str) : Option Str :=
  (((splitOnChar '&' query).map paramEntry).find? (fun p => p.1 = name)).map (·.2)

/-- The part of `s` strictly before the last occurrence of `pat`
(none when `pat` does not occur).  Models the greedy `(.+)\.zip` group
of the archive regex, which captures everything before the last `.zip`. -/
def cutBeforeLast (pat : Str) : Str → Option Str
  | [] => none
  | c :: rest =>
    match cutBeforeLast pat rest with
    | some r => some (c :: r)
    | none => if pat.isPrefixOf (c :: rest) then some [] else none

/-- The branch captured by `(.+)\.zip`: the non-empty part before the
last `.zip`. -/
def zipBranch (r : Str) : Option Str :=
  match cutBeforeLast ".zip".data r with
  | some b => if b.isEmpty then none else some b
  | none => none

/-- The branch captured after `archive/`, with the optional greedy
`(?:refs\/heads\/)?` group: when the text starts with `refs/heads/`
that part is consumed first, falling back (regex backtracking) to
matching without consuming it. -/
def archiveBranch (rst : Str) : Option Str :=
  if startsWithSeq rst "refs/heads/".data then
    match zipBranch (rst.drop 11) with
    | some b => some b
    | none => zipBranch rst
  else zipBranch rst

/-- Embedding of the archive-URL regex
`https:\/\/github\.com\/([^\/]+)\/([^\/]+)\/archive\/(?:refs\/heads\/)?(.+)\.zip`
applied to the query-free URL (which, on this code path, starts with
the literal `https://github.com/`, so the match is anchored there):
yields owner, repository and branch on a match. -/
def githubArchiveMatch (cleanUrl : Str) : Option (Str × Str × Str) :=
  if startsWithSeq cleanUrl "https://github.com/".data then
    match splitOnChar '/' (cleanUrl.drop 19) with
    | owner :: repo :: arch :: tail =>
      if owner ≠ [] ∧ repo ≠ [] ∧ arch = "archive".data ∧ tail ≠ [] then
        match archiveBranch (List.intercalate ['/'] tail) with
        | some b => some (owner, repo, b)
        | none => none
      else none
    | _ => none
  else none

/-- The rewrite `cleanUrl = "https://api.github.com/repos/owner/repo/zipball/branch"`
performed when the regex matches; the URL is left as-is otherwise. -/
def rewriteArchiveUrl (cleanUrl : Str) : Str :=
  match githubArchiveMatch cleanUrl with
  | some (owner, repo, branch) =>
      "https://api.github.com/repos/".data ++ owner ++ '/' :: repo ++
        "/zipball/".data ++ branch
  | none => cleanUrl

/-- Embedding of the URL-parsing prologue shared by `installPlugin`,
`installTheme` and `downloadPlugin`: only when the source starts with
`https://github.com/` and contains `?` are the `directory` and `token`
query parameters extracted and the URL normalised to its query-free
form; and only when a token is present and the normalised URL contains
`/archive/` is it rewritten to the authenticated API endpoint.  Every
other source is used exactly as given, with empty directory and token. -/
def parsePackageSource (url : Str) : Str × Str × Str :=
  if startsWithSeq url "https://github.com/".data = true ∧ url.contains '?' = true then
    let cut := splitAtFirst '?' url
    let query := cut.2.getD []
    let directory := (searchParamGet query "directory".data).getD []
    let token := (searchParamGet query "token".data).getD []
    let cleanUrl :=
      if token ≠ [] ∧ containsSeq cut.1 "/archive/".data = true then rewriteArchiveUrl cut.1
      else cut.1
    (cleanUrl, directory, token)
  else (url, [], [])

/-- Counterexample to C9: a package-source URL that carries both
`directory` and `token` query parameters but is not hosted on
`github.com` is used completely as-is — neither parameter is extracted
and the URL keeps its query — contradicting the claim that every
package-source URL carrying these parameters has them extracted and the
URL normalised to its query-free form. -/
theorem C9_url_params_counterexample :
    parsePackageSource "https://example.com/plugin.zip?directory=MyPlugin&token=secret".data =
      ("https://example.com/plugin.zip?directory=MyPlugin&token=secret".data, [], []) := by
  decide

/-- The amended C9 property: (1) a source that does not start with
`https://github.com/` or contains no `?` is used as-is with empty
directory and token; (2) for `github.com` URLs with a query the
parameters are extracted in either order and the URL is normalised to
its query-free form, a token triggering the rewrite of an archive URL
to `https://api.github.com/repos/owner/repo/zipball/branch` with an
optional `refs/heads/` segment and the trailing `.zip` removed, while
without a token the normalised URL is kept un-rewritten. -/
theorem C9_url_params :
    (∀ url : Str,
      startsWithSeq url "https://github.com/".data = false ∨ url.contains '?' = false →
      parsePackageSource url = (url, [], [])) ∧
    parsePackageSource
        "https://github.com/owner/repo/archive/refs/heads/main.zip?directory=Dir&token=T".data =
      ("https://api.github.com/repos/owner/repo/zipball/main".data, "Dir".data, "T".data) ∧
    parsePackageSource
        "https://github.com/owner/repo/archive/v1.0.zip?token=T&directory=Dir".data =
      ("https://api.github.com/repos/owner/repo/zipball/v1.0".data, "Dir".data, "T".data) ∧
    parsePackageSource
        "https://github.com/owner/repo/archive/refs/heads/main.zip?directory=Dir".data =
      ("https://github.com/owner/repo/archive/refs/heads/main.zip".data, "Dir".data, []) := by
  refine ⟨?_, by decide, by decide, by decide⟩
  intro url h
  unfold parsePackageSource
  rw [if_neg]
  rintro ⟨h1, h2⟩
  rcases h with h | h
  · rw [h1] at h
    cases h
  · rw [h2] at h
    cases h

/-- Witness for C9 at concrete sources: a registry reference (no URL
scheme, no `?`) is used as-is, and so is a non-github URL with a query. -/
theorem C9_url_params_witness :
    parsePackageSource "vendor/custom-plugin:^2.0".data =
      ("vendor/custom-plugin:^2.0".data, [], []) := by
  exact C9_url_params.1 "vendor/custom-plugin:^2.0".data (Or.inl (by decide))

/-! ## Claim C1: SSLManager.setupNginx atomic vhost write
(scripts/ssl-manager.ts, direct-file-API variant, lines 275-419) -/

/-- The two filesystem locations touched by `setupNginx`: the temporary
path `configPath + ".tmp"` and the final path
`/etc/nginx/sites-available/<domain>`; `none` means the file is absent. -/
structure VhostFs where
  tmpFile : Option Str
  finalFile : Option Str
deriving DecidableEq

/-- Observable outcomes of the two external commands of `setupNginx`:
the `nginx -t` configuration test and the `systemctl reload nginx`. -/
structure NginxEnv where
  testOk : Bool
  reloadOk : Bool
deriving DecidableEq

/-- Result of one run of the vhost-writing step: whether the method
completed without throwing, and the filesystem it leaves behind. -/
structure RunOutcome where
  ok : Bool
  fs : VhostFs
deriving DecidableEq

/-- Embedding of the temp-file verification (lines 317-333): the
re-read content must match the generated content in line count
(`split('\n').length`) and in UTF-8 byte length
(`new TextEncoder().encode(...).length`). -/
def verifyTempWrite (gen observed : Str) : Bool :=
  decide (linesCount observed = linesCount gen) && decide (byteLen observed = byteLen gen)

/-- The checks performed after the rename, in source order (lines
339-411): the final content must contain the mandatory
`proxy_pass http://localhost:` directive and (after `trimEnd()`) end
with the closing brace; then the `nginx -t` test and the reload must
succeed; the last step re-checks that the content contains a closing
brace at all.  Any failure throws, which `setupSSL` observes as the
step failing. -/
def vhostChecksOk (finalContent : Str) (env : NginxEnv) : Bool :=
  if ¬ containsSeq finalContent "proxy_pass http://localhost:".data then false
  else if ¬ endsWithSeq (trimRightWs finalContent) ['\x7d'] then false
  else if ¬ env.testOk then false
  else if ¬ env.reloadOk then false
  else if ¬ containsSeq finalContent ['\x7d'] then false
  else true

/-- Embedding of the write/verify/rename/verify machinery of
`setupNginx`, parametrised by the content `observed` that the re-read of
the temporary file returns (what actually landed on disk).  Step 2
writes the temporary file; step 3 verifies it against the generated
content and throws on mismatch, leaving the final path untouched; step 4
is the atomic rename, a single indivisible state change that moves the
temporary file to the final path; steps 5-11 perform the post-rename
checks and the symlink/test/reload, none of which writes the final path
again. -/
def setupNginxFrom (gen observed : Str) (env : NginxEnv) (fs : VhostFs) : RunOutcome :=
  let fs1 : VhostFs := { fs with tmpFile := some observed }
  if ¬ verifyTempWrite gen observed then { ok := false, fs := fs1 }
  else
    let fs2 : VhostFs := { tmpFile := none, finalFile := some observed }
    { ok := vhostChecksOk observed env, fs := fs2 }

/-- Embedding of `setupNginx` itself: `Deno.writeTextFile` followed by
`Deno.readTextFile` of the same path returns exactly the written
content, so the observed temporary content is the generated content. -/
def setupNginx (gen : Str) (env : NginxEnv) (fs : VhostFs) : RunOutcome :=
  setupNginxFrom gen gen env fs

theorem verifyTempWrite_self (gen : Str) : verifyTempWrite gen gen = true := by
  simp [verifyTempWrite]

/-- The claim C1 property.  (1) A temp-file verification mismatch fails
the whole step and leaves the final path exactly as it was — no partial
content ever becomes visible there.  (2) In every actual run (where the
re-read returns the written content) the verification passes, the
atomic rename happens, and afterwards the final path holds exactly the
generated content with the temporary file gone — regardless of whether
the later checks succeed, the final path never holds anything but the
full generated content.  (3) The run succeeds exactly when the
generated content contains the mandatory `proxy_pass` directive and
ends (modulo trailing whitespace) with the closing brace, and the
configuration test and reload succeed. -/
theorem C1_atomic_vhost_write (gen : Str) (env : NginxEnv) (fs : VhostFs) :
    (∀ observed : Str, verifyTempWrite gen observed = false →
      (setupNginxFrom gen observed env fs).ok = false ∧
      (setupNginxFrom gen observed env fs).fs.finalFile = fs.finalFile) ∧
    ((setupNginx gen env fs).fs.finalFile = some gen ∧
      (setupNginx gen env fs).fs.tmpFile = none) ∧
    ((setupNginx gen env fs).ok = true ↔
      (containsSeq gen "proxy_pass http://localhost:".data = true ∧
       endsWithSeq (trimRightWs gen) ['\x7d'] = true ∧
       env.testOk = true ∧ env.reloadOk = true ∧
       containsSeq gen ['\x7d'] = true)) := by
  refine ⟨?_, ?_, ?_⟩
  · intro observed h
    unfold setupNginxFrom
    rw [if_pos (by simp [h])]
    exact ⟨rfl, rfl⟩
  · unfold setupNginx setupNginxFrom
    rw [if_neg (by simp [verifyTempWrite_self])]
    exact ⟨rfl, rfl⟩
  · unfold setupNginx setupNginxFrom
    rw [if_neg (by simp [verifyTempWrite_self])]
    show vhostChecksOk gen env = true ↔ _
    unfold vhostChecksOk
    by_cases h1 : containsSeq gen "proxy_pass http://localhost:".data <;>
      by_cases h2 : endsWithSeq (trimRightWs gen) ['\x7d'] <;>
        by_cases h3 : env.testOk <;> by_cases h4 : env.reloadOk <;>
          by_cases h5 : containsSeq gen ['\x7d'] <;>
            simp [h1, h2, h3, h4, h5]

/-- Modelled from the spec: the repository file
`templates/nginx-virtual-host-template` is not under `src/`.  Per the
spec it is an nginx virtual-host server block with exactly two literal
placeholder tokens, `DOMAIN_NAME` and `PORT`, containing the mandatory
directive `proxy_pass http://localhost:PORT;` and ending with the
closing structural brace. -/
def nginxTemplate : Str :=
  ("server \x7b\n    listen 80;\n    server_name DOMAIN_NAME;\n\n    location / \x7b\n        proxy_pass http://localhost:PORT;\n        proxy_set_header Host $host;\n        proxy_set_header X-Real-IP $remote_addr;\n    \x7d\n\x7d\n").data

/-- Embedding of the template substitution of `setupNginx` (lines
305-307): all occurrences of `DOMAIN_NAME`, then all occurrences of
`PORT`, replaced in memory, never through a shell. -/
def substituteTemplate (domain port : Str) : Str :=
  replaceSeq "PORT".data port (replaceSeq "DOMAIN_NAME".data domain nginxTemplate)

set_option maxRecDepth 100000 in
/-- Witness for C1 at the spec's own scenario (domain
`demo.example.com`, port `8001`), with the nginx test and reload
succeeding, on an initially empty filesystem: the run succeeds, the
final path holds exactly the generated content, which contains
`proxy_pass http://localhost:8001;`, and a torn temporary write (empty
observed content) fails the step with the final path left absent. -/
theorem C1_atomic_vhost_write_witness :
    (setupNginx (substituteTemplate "demo.example.com".data "8001".data)
        { testOk := true, reloadOk := true } { tmpFile := none, finalFile := none }).ok = true ∧
    (setupNginx (substituteTemplate "demo.example.com".data "8001".data)
        { testOk := true, reloadOk := true } { tmpFile := none, finalFile := none }).fs.finalFile =
      some (substituteTemplate "demo.example.com".data "8001".data) ∧
    containsSeq (substituteTemplate "demo.example.com".data "8001".data)
        "proxy_pass http://localhost:8001;".data = true ∧
    (setupNginxFrom (substituteTemplate "demo.example.com".data "8001".data) []
        { testOk := true, reloadOk := true } { tmpFile := none, finalFile := none }).fs.finalFile =
      none := by
  have h := C1_atomic_vhost_write (substituteTemplate "demo.example.com".data "8001".data)
    { testOk := true, reloadOk := true } { tmpFile := none, finalFile := none }
  refine ⟨h.2.2.mpr ⟨by decide, by decide, rfl, rfl, by decide⟩, h.2.1.1, by decide, ?_⟩
  exact (h.1 [] (by decide)).2

end MauticSelectel
